import Mathlib

/-!
Verification development for the `Apps_logging_app` repository.

Each Python function named in the claims is shallow-embedded as a Lean
definition over explicit state; machine-level effects (file reads, field
updates, exceptions) become pure data.  File contents are lists of
characters, byte offsets are naturals, wall-clock instants are integers
(minutes), exceptions are `Except` errors.
-/

namespace AppsLogging

/-! ## File reading (`BaseAgent._read_batch_log`, `agents/base.py` 737-759)

`f.readline()` in Python returns the characters up to and including the
next `\n`, or the remaining characters (with no `\n`) at end of file, or
the empty string at EOF.  `f.tell()` afterwards is the offset just past
what was returned. -/

/-- Characters of `l` up to and including the first newline (the whole of
`l` when it has no newline): the content part of one `readline()` call. -/
def takeThroughNl : List Char → List Char
  | [] => []
  | c :: cs => if c = '\n' then [c] else c :: takeThroughNl cs

/-- Characters of `l` strictly after the first newline (empty when `l`
has no newline): what remains in the file after one `readline()` call. -/
def dropThroughNl : List Char → List Char
  | [] => []
  | c :: cs => if c = '\n' then cs else dropThroughNl cs

/-- One `f.readline()` from offset `pos`: the line read and the new
offset `f.tell()`. -/
def readline (content : List Char) (pos : Nat) : List Char × Nat :=
  let line := takeThroughNl (content.drop pos)
  (line, pos + line.length)

/-- The loop body of `_read_batch_log`: up to `n` `readline()` calls,
breaking at the first empty read; returns the collected lines and the
final `f.tell()` offset stored back into `path_file.cursor`. -/
def readBatchAux (content : List Char) (pos : Nat) : Nat → List (List Char) × Nat
  | 0 => ([], pos)
  | n + 1 =>
    let r := readline content pos
    if r.1 = [] then ([], pos)
    else
      let rest := readBatchAux content r.2 n
      (r.1 :: rest.1, rest.2)

/-- `BaseAgent._read_batch_log`: opens the file, seeks to `cursor`,
reads up to `buffer_rows` lines, and sets the cursor to the post-read
offset.  Returns the lines and the new cursor. -/
def read_batch_log (content : List Char) (bufferRows cursor : Nat) :
    List (List Char) × Nat :=
  readBatchAux content cursor bufferRows

/-! ## Shared data model

A query-result row is an association list from lowercased column names to
string values; a query result is a list of rows.  Python compares these
with structural (deep) equality.  Python exceptions are summed in
`PyErr`; the `ValueError`s raised by the factories are distinguished by
their message text. -/

abbrev Row := List (String × String)

abbrev Rows := List Row

inductive PyErr
  | attributeError
  | importError
  | queryError
  | sendError
  | connectError
  | configNotFound
  | unknownType
  | topicNotAllowed
  | validationError
deriving DecidableEq, Repr

/-- Python truthiness of an optional list value: `None` and `[]` are
falsy, every non-empty list is truthy. -/
def truthyRows : Option Rows → Bool
  | none => false
  | some r => !r.isEmpty

/-- Python dynamic attribute lookup: resolving a name that the object
does not bind raises `AttributeError`. -/
def getattrDyn (attrs : List String) (name : String) : Except PyErr Unit :=
  if name ∈ attrs then .ok () else .error .attributeError

/-! ## WorkingDataConnection (`agents/data.py`)

Wall-clock instants and TTLs are integers counted in minutes, so
`datetime.now() + timedelta(minutes=m)` becomes `now + m`; every method
that reads the clock takes the current instant `now` explicitly. -/

inductive WorkingDataStatus
  | ready
  | query_running
  | updated
  | expired
deriving DecidableEq, Repr

structure DataConnectionConfig where
  name : String
  is_error : Bool
  is_warning : Bool
  destination_ref : Option (String × String × String)
  expired_time_int : Option Int
deriving DecidableEq, Repr

structure WorkingDataConnection where
  name : String
  producer_type : String
  producer_name : String
  topic : Option String
  database_type : Option String
  database_name : Option String
  query : Option String
  is_error : Bool
  is_warning : Bool
  status : WorkingDataStatus
  expired_time : Option Int
  data_dict_match : Option Row
  data_dict_query_source : Option Row
  data_dict_result : Option Rows
  list_data_dict_query_result : Option Rows
deriving DecidableEq, Repr

/-- `WorkingDataConnection.from_config`: `expired_time` is
`now + cfg.expired_time_int` minutes when the TTL is configured and
absent (`None`) otherwise; status starts at READY and all working data
starts empty. -/
def from_config (now : Int) (producerType producerName : String)
    (topic : Option String) (cfg : DataConnectionConfig) :
    WorkingDataConnection :=
  { name := cfg.name
    producer_type := producerType
    producer_name := producerName
    topic := topic
    database_type := cfg.destination_ref.map (fun d => d.1)
    database_name := cfg.destination_ref.map (fun d => d.2.1)
    query := cfg.destination_ref.map (fun d => d.2.2)
    is_error := cfg.is_error
    is_warning := cfg.is_warning
    status := .ready
    expired_time := cfg.expired_time_int.map (fun m => now + m)
    data_dict_match := none
    data_dict_query_source := none
    data_dict_result := none
    list_data_dict_query_result := none }

/-- `WorkingDataConnection.update_expired_time`. -/
def update_expired_time (now minutes : Int) (w : WorkingDataConnection) :
    WorkingDataConnection :=
  { w with expired_time := some (now + minutes) }

/-- `WorkingDataConnection.set_query_running_status`. -/
def set_query_running_status (w : WorkingDataConnection) :
    WorkingDataConnection :=
  if w.status ≠ .expired ∧ w.status ≠ .updated then
    { w with status := .query_running }
  else w

/-- `WorkingDataConnection.set_ready_status`. -/
def set_ready_status (w : WorkingDataConnection) : WorkingDataConnection :=
  if w.status ≠ .expired then { w with status := .ready } else w

/-- `WorkingDataConnection.on_query_done`: the future either raised
(`.error`) or delivered a row list (`.ok`, with `none` standing for
Python `None`).  A truthy new result is stored and the WDC marked
UPDATED; a truthy result equal to the stored one sets READY; a falsy
result takes neither branch; a raised future expires the WDC now. -/
def on_query_done (now : Int) (fut : Except PyErr (Option Rows))
    (w : WorkingDataConnection) : WorkingDataConnection :=
  match fut with
  | .error _ => update_expired_time now 0 w
  | .ok result =>
    if truthyRows result = true ∧ w.list_data_dict_query_result ≠ result then
      { w with list_data_dict_query_result := result, status := .updated }
    else if truthyRows result = true ∧ w.list_data_dict_query_result = result then
      set_ready_status w
    else w

/-- `WorkingDataConnection.check_expired_time`. -/
def check_expired_time (now : Int) (w : WorkingDataConnection) :
    WorkingDataConnection :=
  match w.expired_time with
  | none => w
  | some t => if now > t then { w with status := .expired } else w

/-- The operations that can touch one WDC after its creation, with the
clock instants they observe. -/
inductive WOp
  | updateExpiredTime (now minutes : Int)
  | setQueryRunning
  | setReady
  | onQueryDone (now : Int) (fut : Except PyErr (Option Rows))
  | checkExpiredTime (now : Int)

def applyOp : WOp → WorkingDataConnection → WorkingDataConnection
  | .updateExpiredTime now m, w => update_expired_time now m w
  | .setQueryRunning, w => set_query_running_status w
  | .setReady, w => set_ready_status w
  | .onQueryDone now fut, w => on_query_done now fut w
  | .checkExpiredTime now, w => check_expired_time now w

def applyOps (ops : List WOp) (w : WorkingDataConnection) :
    WorkingDataConnection :=
  ops.foldl (fun w op => applyOp op w) w

/-- An operation is benign when it does not set the expiration deadline:
everything except `update_expired_time` and a query callback for a
future that raised (whose failure branch calls `update_expired_time 0`). -/
def Benign : WOp → Bool
  | .updateExpiredTime _ _ => false
  | .onQueryDone _ (.error _) => false
  | _ => true

/-! ## The agent pipeline record of `agents/base.py`

`agents/base.py` manipulates the WDC through a different set of fields
(`is_updated`, `query_in_progress`, `data_dict_result`), assigned
dynamically; they are modelled as a dedicated record. -/

structure WDCBase where
  name : String
  producer_type : String
  producer_name : String
  database_type : Option String
  database_name : Option String
  query : Option String
  is_error : Bool
  expired_time : Int
  data_dict_match : Option Row
  data_dict_query_source : Option Row
  data_dict_result : Option Rows
  is_updated : Bool
  query_in_progress : Bool
deriving DecidableEq, Repr

/-- `BaseAgent._on_done` (`agents/base.py` 876-892): the completion
callback attached by `_data_connections_execute_queries`. -/
def on_done (w : WDCBase) (fut : Except PyErr (Option Rows)) : WDCBase :=
  match fut with
  | .error _ => { w with is_updated := false, query_in_progress := false }
  | .ok result =>
    if truthyRows result = true ∧ w.data_dict_result ≠ result then
      { w with data_dict_result := result, is_updated := true,
               query_in_progress := false }
    else if truthyRows result = true ∧ w.data_dict_result = result then
      { w with is_updated := false, query_in_progress := false }
    else w

/-- The module-level names bound by `producers/factory.py` after it
executes: its imports and the class it defines.  `PRODUCER_INSTANCES`
is not among them. -/
def producersFactoryExports : List String :=
  ["yaml", "Dict", "Tuple", "TYPE_CHECKING", "Path", "threading",
   "PRODUCER_REGISTRY", "ProducerOrchestrator", "ProducerFactory"]

/-- The module-level names bound by `databases/factory.py` after it
executes.  `DATABASE_INSTANCES` is not among them. -/
def databasesFactoryExports : List String :=
  ["yaml", "Path", "threading", "TYPE_CHECKING", "Dict", "Tuple",
   "DatabaseOrchestrator", "DATABASE_REGISTRY", "DatabaseFactory"]

/-- `from M import name`: raises `ImportError` when the module binds no
such name. -/
def importFrom (exports : List String) (name : String) : Except PyErr Unit :=
  if name ∈ exports then .ok () else .error .importError

/-- The loop body of `_send_messages_to_producers`: a WDC with a truthy
`data_dict_result` and `is_updated` set has its payload produced and the
flag cleared; all other WDCs are left alone.  Returns the messages
produced, as `(is_error, payload)` pairs, and the updated working set. -/
def sendLoop : List WDCBase → List (Bool × Option Rows) × List WDCBase
  | [] => ([], [])
  | w :: ws =>
    if truthyRows w.data_dict_result = true ∧ w.is_updated = true then
      let r := sendLoop ws
      ((w.is_error, w.data_dict_result) :: r.1,
       { w with is_updated := false } :: r.2)
    else
      let r := sendLoop ws
      (r.1, w :: r.2)

/-- `BaseAgent._send_messages_to_producers` (`agents/base.py` 914-935):
the method body begins with
`from producers.factory import PRODUCER_INSTANCES`, and only then walks
the working set sending updated results. -/
def send_messages_to_producers (wdcs : List WDCBase) :
    Except PyErr (List (Bool × Option Rows) × List WDCBase) := do
  let _ ← importFrom producersFactoryExports "PRODUCER_INSTANCES"
  return sendLoop wdcs

/-! ## Database executor (`databases/base.py`)

`QueryTask` carries the query, its bound parameters, a retry counter and
a future; the future is pending, resolved with a value (Python `None`
modelled as `none`), or resolved with an exception. -/

inductive FutureState
  | pending
  | result (v : Option Rows)
  | exception (e : PyErr)
deriving DecidableEq, Repr

structure QueryTask where
  query : String
  params : Row
  retries : Nat
  future : FutureState
deriving DecidableEq, Repr

/-- `BaseDatabase._safe_query` (`databases/base.py` 466-487): run
`_query`; on success return its rows; on failure log the error, call
`_safe_connect()` (which itself swallows every connection error), and
fall off the end of the function, returning Python `None`.  The query
exception is never re-raised, so the worker future always resolves
normally. -/
def safe_query (queryOutcome : Except PyErr Rows) : Option Rows :=
  match queryOutcome with
  | .ok rows => some rows
  | .error _ => none

/-- The completion callback `_callback` defined inside
`BaseDatabase._dispatch` (`databases/base.py` 454-462):
`task.future.set_result(f.result())`, falling back to
`task.future.set_exception` only when the worker itself raised. -/
def dispatch_callback (workerOutcome : Except PyErr (Option Rows))
    (task : QueryTask) : QueryTask :=
  match workerOutcome with
  | .ok v => { task with future := .result v }
  | .error e => { task with future := .exception e }

/-- One task dispatched by `BaseDatabase._dispatch` (`databases/base.py`
429-464): submit `_safe_query` to the worker pool and run the completion
callback on its outcome.  Because `_safe_query` traps every exception,
the worker outcome is always `.ok`.  The returned list is the tasks the
dispatcher put back on the queue: the loop has no re-enqueue path, so it
is always empty. -/
def dispatch_one (queryOutcome : Except PyErr Rows) (task : QueryTask) :
    QueryTask × List QueryTask :=
  (dispatch_callback (.ok (safe_query queryOutcome)) task, [])

/-! ## Rotation recovery (`BaseAgent._read_remaining_old_file`,
`agents/base.py` 691-735)

The monitored directory is a list of entries; paths are the plain file
names of one directory, file identities are `(st_ino, st_dev)` pairs.
Attribute lookups on `self` and on the `PathFileConfig` model resolve
against the names those classes actually bind. -/

structure DirEntry where
  path : String
  mtime : Nat
  fileId : Nat × Nat
  content : List Char
deriving DecidableEq, Repr

structure PathFileState where
  name : String
  path : String
  cursor : Nat
  id : Option (Nat × Nat)
deriving DecidableEq, Repr

/-- The attribute names bound on `BaseAgent` instances in
`agents/base.py`: the `__init__` fields and the methods of the class.
`_get_file_id` is not among them (`get_file_id` is a module-level
function of `utils.py`). -/
def baseAgentAttrs : List String :=
  ["config", "logger", "working_data_connections", "_stop_event", "_thread",
   "stop", "_worker", "_run_once", "_read_remaining_old_file",
   "_read_batch_log", "_data_connections_flow",
   "_data_connections_match_regex",
   "_data_connections_transformation_and_filtering", "_on_done",
   "_data_connections_execute_queries", "_send_messages_to_producers",
   "_clean_working_data_connections"]

/-- The fields declared by the `PathFileConfig` pydantic model in
`agents/base.py`: `file_id` is not among them. -/
def pathFileConfigAttrs : List String := ["name", "path", "cursor", "id"]

/-- Does the character list `s` start with the pattern `p`?  Used for
the glob pattern `filename + "*"`. -/
def charsStartWith : List Char → List Char → Bool
  | _, [] => true
  | [], _ :: _ => false
  | c :: cs, p :: ps => p = c && charsStartWith cs ps

/-- Stable insertion into a list sorted by ascending `st_mtime`, for
`sorted(directory.glob(pattern), key=lambda p: p.stat().st_mtime)`. -/
def insertByMtime (e : DirEntry) : List DirEntry → List DirEntry
  | [] => [e]
  | x :: xs =>
    if e.mtime < x.mtime then e :: x :: xs else x :: insertByMtime e xs

def sortByMtime : List DirEntry → List DirEntry
  | [] => []
  | x :: xs => insertByMtime x (sortByMtime xs)

/-- The candidate loop of `_read_remaining_old_file`: skip the current
path, then evaluate `self._get_file_id(f) == path_file.file_id`.  Both
attribute lookups fail in this snapshot, so the first candidate that is
not the current path raises `AttributeError`; the fall-through when the
loop finishes leaves `old_file = None`. -/
def findOldLoop (pf : PathFileState) :
    List DirEntry → Except PyErr (Option DirEntry)
  | [] => .ok none
  | f :: fs =>
    if f.path = pf.path then findOldLoop pf fs
    else
      match getattrDyn baseAgentAttrs "_get_file_id" with
      | .error e => .error e
      | .ok _ =>
        match getattrDyn pathFileConfigAttrs "file_id" with
        | .error e => .error e
        | .ok _ => .ok (some f)

/-- `f.readlines()` after `f.seek(pos)`: every line from offset `pos` to
end of file.  `content.length + 1` readline steps always reach EOF. -/
def readlinesFrom (content : List Char) (pos : Nat) : List (List Char) :=
  (readBatchAux content pos (content.length + 1)).1

/-- `BaseAgent._read_remaining_old_file`: glob the parent directory for
`filename*` sorted by mtime, look for the candidate whose identity
matches the stored one, and read it from the stored cursor to EOF; when
no candidate matches, log a warning and return no lines. -/
def read_remaining_old_file (dir : List DirEntry) (pf : PathFileState) :
    Except PyErr (List (List Char)) := do
  let candidates :=
    sortByMtime (dir.filter (fun e => charsStartWith e.path.toList pf.path.toList))
  match ← findOldLoop pf candidates with
  | none => return []
  | some oldFile => return readlinesFrom oldFile.content pf.cursor

/-! ## Producer worker retry (`BaseProducer._worker`,
`producers/base.py` 201-253)

The jitter `random.uniform(0, 10)` drawn before the `n`-th re-enqueue is
an unconstrained rational parameter `j n`; sleep durations are rationals
in seconds. -/

structure Message where
  topic : Option String
  is_error : Bool
  is_warning : Bool
  message : Rows
  retries : Nat
deriving DecidableEq, Repr

inductive FailStep
  | reenqueued (sleep : ℚ) (m : Message)
  | raised
deriving DecidableEq, Repr

/-- The `except` branch of `BaseProducer._worker` for a failed `_send`:
after logging and `mark_disconnected`, either bump the retry counter,
sleep `2 ** retries + random.uniform(0, 10)` seconds (with `retries` the
value before the bump) and re-enqueue, or re-`raise` once `retries` has
reached `max_retries`. -/
def worker_on_send_failure (maxRetries : Nat) (jitter : ℚ) (m : Message) :
    FailStep :=
  if m.retries < maxRetries then
    .reenqueued ((2 : ℚ) ^ m.retries + jitter) { m with retries := m.retries + 1 }
  else .raised

structure FailRun where
  sleeps : List ℚ
  reenqueues : Nat
  finalRetries : Nat
  raised : Bool
deriving DecidableEq, Repr

/-- A message whose `_send` raises on every attempt: iterate the failure
branch, collecting the sleeps and re-enqueues until the worker
re-raises.  `fuel` bounds the iteration; any `fuel > maxRetries -
m.retries` reaches the `raise`. -/
def run_persistent_failure (maxRetries : Nat) (j : Nat → ℚ) :
    Nat → Message → FailRun
  | 0, m => ⟨[], 0, m.retries, false⟩
  | fuel + 1, m =>
    match worker_on_send_failure maxRetries (j m.retries) m with
    | .raised => ⟨[], 0, m.retries, true⟩
    | .reenqueued s m2 =>
      let r := run_persistent_failure maxRetries j fuel m2
      ⟨s :: r.sleeps, r.reenqueues + 1, r.finalRetries, r.raised⟩

/-! ## Connection orchestrator (`orchestration/orchestrator.py`)

`conn i` tells whether the `i`-th invocation of `_connect` (counting all
invocations on this orchestrator) succeeds; the state records the
`_connected` flag, the sleeps performed (in seconds) and the number of
`_connect` invocations so far. -/

structure OrchestratorState where
  connected : Bool
  sleeps : List Nat
  attempts : Nat
deriving DecidableEq, Repr

/-- One round of `_connect_with_retry`: the
`for attempt in range(1, max_retries + 1)` loop.  A successful attempt
sets `_connected` and returns (`true`); every failed attempt sleeps
`retry_delay` seconds; falling off the loop returns `false`. -/
def retryRound (conn : Nat → Bool) (retryDelay : Nat) :
    Nat → OrchestratorState → OrchestratorState × Bool
  | 0, s => (s, false)
  | k + 1, s =>
    if conn s.attempts then
      ({ s with connected := true, attempts := s.attempts + 1 }, true)
    else
      retryRound conn retryDelay k
        { s with attempts := s.attempts + 1, sleeps := s.sleeps ++ [retryDelay] }

/-- `_connect_with_retry`: run one round of `max_retries` attempts; on
exhaustion sleep 120 seconds and recurse.  `rounds` is recursion fuel:
`none` means the recursion has not yet returned within that fuel. -/
def connect_with_retry (conn : Nat → Bool) (maxRetries retryDelay : Nat) :
    Nat → OrchestratorState → Option OrchestratorState
  | 0, _ => none
  | r + 1, s =>
    let round := retryRound conn retryDelay maxRetries s
    if round.2 then some round.1
    else
      connect_with_retry conn maxRetries retryDelay r
        { round.1 with sleeps := round.1.sleeps ++ [120] }

/-- `BaseOrchestrator.ensure_connected` as seen by a single caller: the
fast path returns at once when `_connected` is set; otherwise (and still
unset after taking the lock) it runs `_connect_with_retry`. -/
def ensure_connected (conn : Nat → Bool) (maxRetries retryDelay rounds : Nat)
    (s : OrchestratorState) : Option OrchestratorState :=
  if s.connected then some s
  else connect_with_retry conn maxRetries retryDelay rounds s

/-! ## Resource factories (`databases/factory.py` 73-136,
`producers/factory.py` 62-126)

A raw YAML entry is its `(type, name)` key plus whether
`model_validate` accepts it; a registry entry records the attribute
names of the classes it will instantiate, so that the dynamic attribute
accesses of `_create` can be resolved. -/

structure RawResourceConfig where
  type : String
  name : String
  valid : Bool
deriving DecidableEq, Repr

structure DatabaseEntry where
  classAttrs : List String
deriving DecidableEq, Repr

structure ProducerEntry where
  configFields : List String
  topicsValue : Option (List String)
  classAttrs : List String
deriving DecidableEq, Repr

/-- The attribute names bound on a `BaseDatabase` instance by
`databases/base.py`: `start` is not among them (the dispatcher thread is
started by `__init__`, and the only public lifecycle method is
`shutdown`). -/
def baseDatabaseAttrs : List String :=
  ["config", "logger", "_queue", "_stop_event", "_executor", "_dispatcher",
   "execute", "shutdown", "_connect", "_query", "_dispatch", "_safe_query",
   "_safe_connect", "orchestrator"]

/-- The attribute names of `OracleDatabase`
(`example/first_example/databases/oracle/database.py`). -/
def oracleDatabaseAttrs : List String :=
  baseDatabaseAttrs ++ ["_build_dsn", "dsn", "pool"]

/-- The attribute names bound on a `BaseProducer` instance
(`producers/base.py`): here `start` does exist. -/
def baseProducerAttrs : List String :=
  ["config", "logger", "_queue", "_stop_event", "_worker_thread",
   "orchestrator", "start", "enqueue_message", "stop", "is_connected",
   "connect", "close", "_worker", "_send"]

/-- The fields declared by `KafkaHandlerConfig`
(`example/first_example/producers/kafka_handler/config.py`), including
those inherited from `BaseProducerConfig`.  It declares `topic`
(singular) and no `topics` field. -/
def kafkaHandlerConfigFields : List String :=
  ["type", "name", "max_retries", "brokers", "security_protocol",
   "ssl_cafile", "ssl_certfile", "ssl_keyfile", "ssl_password", "topic",
   "acks", "retries", "batch_size", "linger_ms", "buffer_memory"]

/-- `DatabaseFactory._create`: look the `(type, name)` pair up in the
loaded YAML (ValueError `configNotFound` when absent), then the type in
the registry (ValueError `unknownType` when absent), validate the raw
config, instantiate the class, attach a `DatabaseOrchestrator`, and call
`database_ref.start()` — a dynamic attribute access on the instance. -/
def database_create (config : List RawResourceConfig)
    (registry : List (String × DatabaseEntry)) (dbType dbName : String) :
    Except PyErr Unit := do
  match config.find? (fun d => d.type = dbType ∧ d.name = dbName) with
  | none => .error .configNotFound
  | some rc =>
    match registry.find? (fun e => e.1 = dbType) with
    | none => .error .unknownType
    | some entry =>
      if rc.valid = false then .error .validationError
      else do
        let _ ← getattrDyn entry.2.classAttrs "start"
        return ()

/-- Python membership test `topic not in topics` for an optional
requested topic: `None` is never an element of a list of strings. -/
def topicNotIn (topic : Option String) (ts : List String) : Bool :=
  match topic with
  | none => true
  | some t => !ts.contains t

/-- `ProducerFactory._create`: config lookup, registry lookup,
validation, then `if producer_config.topics and topic not in
producer_config.topics: raise ValueError(...)` — where `topics` is a
dynamic attribute access on the validated config model — and finally
construct, attach a `ProducerOrchestrator` and call
`producer_ref.start()`. -/
def producer_create (config : List RawResourceConfig)
    (registry : List (String × ProducerEntry)) (pType pName : String)
    (topic : Option String) : Except PyErr Unit := do
  match config.find? (fun p => p.type = pType ∧ p.name = pName) with
  | none => .error .configNotFound
  | some rc =>
    match registry.find? (fun e => e.1 = pType) with
    | none => .error .unknownType
    | some entry =>
      if rc.valid = false then .error .validationError
      else do
        let _ ← getattrDyn entry.2.configFields "topics"
        match entry.2.topicsValue with
        | some ts =>
          if ts ≠ [] ∧ topicNotIn topic ts = true then .error .topicNotAllowed
          else do
            let _ ← getattrDyn entry.2.classAttrs "start"
            return ()
        | none => do
          let _ ← getattrDyn entry.2.classAttrs "start"
          return ()

/-! ## Single-flight reconnection under interleaving (C9)

Two callers of `ensure_connected` on one orchestrator.  Each thread is a
program counter; the shared state is the mutex (`none` or its holder),
the `_connected` flag and the log of `_connect` invocations (by
invoking thread).  A thread at `connecting` is inside
`_connect_with_retry` holding the lock; a failed attempt (with its
retry sleeps, exhaustion cool-downs and recursion) stays there, a
successful one publishes `_connected` and releases the lock. -/

inductive ThreadPC
  | start
  | waitLock
  | lockedCheck
  | connecting
  | doneFast
  | doneNoConnect
  | doneConnected
deriving DecidableEq, Repr

structure ConcState where
  lock : Option (Fin 2)
  connected : Bool
  pc : Fin 2 → ThreadPC
  connectLog : List (Fin 2)

/-- One interleaving step of the two callers. -/
inductive ConcStep : ConcState → ConcState → Prop
  | fastHit (s : ConcState) (t : Fin 2) (hp : s.pc t = .start)
      (hc : s.connected = true) :
      ConcStep s { s with pc := Function.update s.pc t .doneFast }
  | fastMiss (s : ConcState) (t : Fin 2) (hp : s.pc t = .start)
      (hc : s.connected = false) :
      ConcStep s { s with pc := Function.update s.pc t .waitLock }
  | acquire (s : ConcState) (t : Fin 2) (hp : s.pc t = .waitLock)
      (hl : s.lock = none) :
      ConcStep s { s with lock := some t,
                          pc := Function.update s.pc t .lockedCheck }
  | checkHit (s : ConcState) (t : Fin 2) (hp : s.pc t = .lockedCheck)
      (hc : s.connected = true) :
      ConcStep s { s with lock := none,
                          pc := Function.update s.pc t .doneNoConnect }
  | checkMiss (s : ConcState) (t : Fin 2) (hp : s.pc t = .lockedCheck)
      (hc : s.connected = false) :
      ConcStep s { s with pc := Function.update s.pc t .connecting }
  | connectFail (s : ConcState) (t : Fin 2) (hp : s.pc t = .connecting) :
      ConcStep s { s with connectLog := s.connectLog ++ [t] }
  | connectOk (s : ConcState) (t : Fin 2) (hp : s.pc t = .connecting) :
      ConcStep s { s with connected := true, lock := none,
                          pc := Function.update s.pc t .doneConnected,
                          connectLog := s.connectLog ++ [t] }

/-- Initial state: nobody holds the mutex, the resource is disconnected,
both callers are about to enter `ensure_connected`. -/
def concInit : ConcState :=
  { lock := none, connected := false, pc := fun _ => .start, connectLog := [] }

/-- States reachable from `concInit` by interleaving the two callers. -/
inductive ConcReach : ConcState → Prop
  | init : ConcReach concInit
  | step {s s2 : ConcState} : ConcReach s → ConcStep s s2 → ConcReach s2

/-- The inductive invariant: a thread past the double-check (at
`lockedCheck` or `connecting`) holds the mutex, and once `_connected` is
published no thread is still inside the connect region. -/
def ConcInv (s : ConcState) : Prop :=
  (∀ t : Fin 2, (s.pc t = .lockedCheck ∨ s.pc t = .connecting) →
    s.lock = some t) ∧
  (s.connected = true → ∀ t : Fin 2, s.pc t ≠ .connecting)

end AppsLogging

namespace AppsLogging

/-! ## Lemmas about `takeThroughNl` / `dropThroughNl` -/

theorem takeThroughNl_append_dropThroughNl (l : List Char) :
    takeThroughNl l ++ dropThroughNl l = l := by
  induction l with
  | nil => rfl
  | cons c cs ih =>
    by_cases h : c = '\n'
    · simp [takeThroughNl, dropThroughNl, h]
    · simp [takeThroughNl, dropThroughNl, h, ih]

theorem drop_takeThroughNl_length (l : List Char) :
    l.drop (takeThroughNl l).length = dropThroughNl l := by
  have h := takeThroughNl_append_dropThroughNl l
  calc l.drop (takeThroughNl l).length
      = (takeThroughNl l ++ dropThroughNl l).drop (takeThroughNl l).length := by
        rw [h]
    _ = dropThroughNl l := List.drop_left _ _

theorem getLast?_cons_of_ne_nil {α : Type} (a : α) {l : List α} (h : l ≠ []) :
    (a :: l).getLast? = l.getLast? := by
  cases l with
  | nil => exact absurd rfl h
  | cons b bs => exact List.getLast?_cons_cons

theorem takeThroughNl_last_or (l : List Char) :
    (takeThroughNl l).getLast? = some '\n' ∨ dropThroughNl l = [] := by
  induction l with
  | nil => right; rfl
  | cons c cs ih =>
    by_cases h : c = '\n'
    · left; simp [takeThroughNl, h]
    · rcases ih with ih | ih
      · left
        have hne : takeThroughNl cs ≠ [] := by
          intro hnil
          rw [hnil] at ih
          simp at ih
        simp only [takeThroughNl, if_neg h, getLast?_cons_of_ne_nil _ hne]
        exact ih
      · right; simp [dropThroughNl, h, ih]

/-- Cursor accounting for the batch read: the final cursor is the start
cursor plus the total length of the returned lines. -/
theorem readBatchAux_snd (content : List Char) (n : Nat) :
    ∀ pos, (readBatchAux content pos n).2 =
      pos + ((readBatchAux content pos n).1.map List.length).sum := by
  induction n with
  | zero => intro pos; simp [readBatchAux]
  | succ n ih =>
    intro pos
    by_cases h : takeThroughNl (content.drop pos) = []
    · simp [readBatchAux, readline, h]
    · simp only [readBatchAux, readline, h, if_neg h]
      simp [ih, Nat.add_assoc]

theorem drop_add_takeThroughNl (content : List Char) (pos : Nat) :
    content.drop (pos + (takeThroughNl (content.drop pos)).length) =
      dropThroughNl (content.drop pos) := by
  rw [← drop_takeThroughNl_length (content.drop pos), List.drop_drop]

theorem readBatchAux_fst_nil (content : List Char) (pos : Nat)
    (h : takeThroughNl (content.drop pos) = []) :
    ∀ n, (readBatchAux content pos n).1 = []
  | 0 => rfl
  | n + 1 => by simp [readBatchAux, readline, h]

/-- The lines returned by the batch read are exactly the contiguous slice
of the file between the old and the new cursor. -/
theorem readBatchAux_flatten (content : List Char) (n : Nat) :
    ∀ pos, (readBatchAux content pos n).1.flatten =
      (content.drop pos).take
        (((readBatchAux content pos n).1.map List.length).sum) := by
  induction n with
  | zero => intro pos; simp [readBatchAux]
  | succ n ih =>
    intro pos
    by_cases h : takeThroughNl (content.drop pos) = []
    · simp [readBatchAux, readline, h]
    · simp only [readBatchAux, readline, if_neg h, List.flatten_cons,
        List.map_cons, List.sum_cons]
      rw [ih, drop_add_takeThroughNl]
      have hsplit := takeThroughNl_append_dropThroughNl (content.drop pos)
      calc takeThroughNl (content.drop pos) ++
            (dropThroughNl (content.drop pos)).take
              (((readBatchAux content
                  (pos + (takeThroughNl (content.drop pos)).length) n).1.map
                    List.length).sum)
          = (takeThroughNl (content.drop pos) ++
              dropThroughNl (content.drop pos)).take
              ((takeThroughNl (content.drop pos)).length +
                ((readBatchAux content
                  (pos + (takeThroughNl (content.drop pos)).length) n).1.map
                    List.length).sum) := by
            rw [List.take_append]
        _ = _ := by rw [hsplit]

/-- Every returned line except possibly the last one is newline-terminated. -/
theorem readBatchAux_dropLast_nl (content : List Char) (n : Nat) :
    ∀ pos, ∀ l ∈ (readBatchAux content pos n).1.dropLast,
      l.getLast? = some '\n' := by
  induction n with
  | zero => intro pos l hl; simp [readBatchAux] at hl
  | succ n ih =>
    intro pos l hl
    by_cases h : takeThroughNl (content.drop pos) = []
    · simp [readBatchAux, readline, h] at hl
    · simp only [readBatchAux, readline, if_neg h] at hl
      rcases hr : (readBatchAux content
          (pos + (takeThroughNl (content.drop pos)).length) n).1 with _ | ⟨a, as⟩
      · rw [hr] at hl
        simp at hl
      · rw [hr] at hl
        simp only [List.dropLast_cons₂, List.mem_cons] at hl
        rcases hl with hl | hl
        · subst hl
          rcases takeThroughNl_last_or (content.drop pos) with hnl | hemp
          · exact hnl
          · exfalso
            have : takeThroughNl (content.drop
                (pos + (takeThroughNl (content.drop pos)).length)) = [] := by
              rw [drop_add_takeThroughNl, hemp]
              rfl
            have hnil := readBatchAux_fst_nil content _ this n
            rw [hnil] at hr
            exact List.noConfusion hr
        · have := ih (pos + (takeThroughNl (content.drop pos)).length) l
          rw [hr] at this
          exact this hl

end AppsLogging

namespace AppsLogging

/-! ## Claim C1 -/

/-- C1 (counterexample): the claim states that a trailing line with no
terminating newline is not consumed and that the cursor ends just past
the last consumed newline.  On file content `"ab\nc"` read from cursor 0
with `buffer_rows = 2`, `_read_batch_log` consumes the unterminated tail
`"c"` and leaves the cursor at 4, the end of file, not at 3, the offset
just past the last newline. -/
theorem C1_counterexample :
    (read_batch_log ['a', 'b', '\n', 'c'] 2 0).2 = 4 ∧
    (read_batch_log ['a', 'b', '\n', 'c'] 2 0).2 ≠ 3 ∧
    ['c'] ∈ (read_batch_log ['a', 'b', '\n', 'c'] 2 0).1 := by
  refine ⟨rfl, by decide, ?_⟩
  have : (read_batch_log ['a', 'b', '\n', 'c'] 2 0).1
      = [['a', 'b', '\n'], ['c']] := rfl
  rw [this]
  simp

/-- C1 (amended): after each `_read_batch_log` call the cursor is
non-decreasing and equals the old cursor plus the total length of the
returned lines; the returned lines are exactly the contiguous slice of
the file between the old and the new cursor; every returned line except
possibly the last is newline-terminated.  A trailing line with no
terminating newline IS consumed, and the cursor advances past it. -/
theorem C1_amended (content : List Char) (bufferRows cursor : Nat) :
    (read_batch_log content bufferRows cursor).2 =
      cursor +
        (((read_batch_log content bufferRows cursor).1.map List.length).sum) ∧
    cursor ≤ (read_batch_log content bufferRows cursor).2 ∧
    (read_batch_log content bufferRows cursor).1.flatten =
      (content.drop cursor).take
        ((read_batch_log content bufferRows cursor).2 - cursor) ∧
    ∀ l ∈ (read_batch_log content bufferRows cursor).1.dropLast,
      l.getLast? = some '\n' := by
  simp only [read_batch_log]
  have h1 := readBatchAux_snd content bufferRows cursor
  refine ⟨h1, ?_, ?_, readBatchAux_dropLast_nl content bufferRows cursor⟩
  · rw [h1]
    exact Nat.le_add_right _ _
  · rw [h1, Nat.add_sub_cancel_left]
    exact readBatchAux_flatten content bufferRows cursor

end AppsLogging

namespace AppsLogging

/-! ## Claim C5 -/

theorem benign_preserves (op : WOp) (hop : Benign op = true)
    (w : WorkingDataConnection) (h1 : w.expired_time = none)
    (h2 : w.status ≠ .expired) :
    (applyOp op w).expired_time = none ∧ (applyOp op w).status ≠ .expired := by
  cases op with
  | updateExpiredTime now m => simp [Benign] at hop
  | setQueryRunning =>
    simp only [applyOp, set_query_running_status]
    split <;> simp_all
  | setReady =>
    simp only [applyOp, set_ready_status]
    split <;> simp_all
  | onQueryDone now fut =>
    cases fut with
    | error e => simp [Benign] at hop
    | ok result =>
      simp only [applyOp, on_query_done]
      split
      · simp_all
      · split
        · simp only [set_ready_status]
          split <;> simp_all
        · exact ⟨h1, h2⟩
  | checkExpiredTime now =>
    have heq : applyOp (WOp.checkExpiredTime now) w = w := by
      simp [applyOp, check_expired_time, h1]
    rw [heq]
    exact ⟨h1, h2⟩

theorem applyOps_benign (ops : List WOp) (hops : ∀ op ∈ ops, Benign op = true) :
    ∀ w : WorkingDataConnection, w.expired_time = none → w.status ≠ .expired →
      (applyOps ops w).expired_time = none ∧
      (applyOps ops w).status ≠ .expired := by
  induction ops with
  | nil => intro w h1 h2; exact ⟨h1, h2⟩
  | cons op ops ih =>
    intro w h1 h2
    have hop := hops op (List.mem_cons_self op ops)
    have hstep := benign_preserves op hop w h1 h2
    have hrest := ih (fun o ho => hops o (List.mem_cons_of_mem op ho))
      (applyOp op w) hstep.1 hstep.2
    simpa [applyOps, List.foldl_cons] using hrest

/-- C5 (counterexample): the claim allows any sequence of operations,
but a query callback whose future raised calls `update_expired_time 0`,
after which `check_expired_time` expires even a WDC that was created
with no TTL configured. -/
theorem C5_counterexample :
    (from_config 0 "kafka" "p" none
        ⟨"dc", false, false, none, none⟩).expired_time = none ∧
    (applyOps [WOp.onQueryDone 5 (.error .queryError), WOp.checkExpiredTime 6]
        (from_config 0 "kafka" "p" none
          ⟨"dc", false, false, none, none⟩)).status =
      WorkingDataStatus.expired := by
  exact ⟨rfl, rfl⟩

/-- C5 (amended): a WDC created by `from_config` with no TTL configured
has no expiration deadline, and no sequence of operations that avoids
setting a deadline — that is, avoids `update_expired_time`, called
directly or by the failure branch of `on_query_done` — can drive it to
EXPIRED; for a WDC whose deadline is set, `check_expired_time` moves a
non-expired WDC to EXPIRED exactly when the clock is strictly past the
deadline. -/
theorem C5_amended (now : Int) (pt pn : String) (tp : Option String)
    (cfg : DataConnectionConfig) (hcfg : cfg.expired_time_int = none)
    (ops : List WOp) (hops : ∀ op ∈ ops, Benign op = true) :
    (from_config now pt pn tp cfg).expired_time = none ∧
    (applyOps ops (from_config now pt pn tp cfg)).status ≠ .expired ∧
    (∀ (w : WorkingDataConnection) (t n2 : Int), w.expired_time = some t →
      w.status ≠ .expired →
      ((check_expired_time n2 w).status = .expired ↔ n2 > t)) := by
  have hexp : (from_config now pt pn tp cfg).expired_time = none := by
    simp [from_config, hcfg]
  refine ⟨hexp, ?_, ?_⟩
  · have hst : (from_config now pt pn tp cfg).status ≠ .expired := by
      simp [from_config]
    exact (applyOps_benign ops hops _ hexp hst).2
  · intro w t n2 ht hs
    simp only [check_expired_time, ht]
    by_cases h : n2 > t
    · simp [h]
    · simp [h, hs]

/-- Closed instantiation of `C5_amended` on a benign operation
sequence. -/
theorem C5_amended_witness :
    ((⟨"dc", false, false, none, none⟩ :
        DataConnectionConfig).expired_time_int = none ∧
      (∀ op ∈ ([WOp.setQueryRunning,
                WOp.onQueryDone 3 (.ok (some [[("a", "b")]])),
                WOp.checkExpiredTime 9] : List WOp), Benign op = true)) ∧
    ((from_config 0 "kafka" "p" none
        ⟨"dc", false, false, none, none⟩).expired_time = none ∧
      (applyOps [WOp.setQueryRunning,
                 WOp.onQueryDone 3 (.ok (some [[("a", "b")]])),
                 WOp.checkExpiredTime 9]
        (from_config 0 "kafka" "p" none
          ⟨"dc", false, false, none, none⟩)).status ≠ .expired ∧
      (∀ (w : WorkingDataConnection) (t n2 : Int), w.expired_time = some t →
        w.status ≠ .expired →
        ((check_expired_time n2 w).status = .expired ↔ n2 > t))) :=
  ⟨⟨rfl, by decide⟩,
   C5_amended 0 "kafka" "p" none ⟨"dc", false, false, none, none⟩ rfl
     [WOp.setQueryRunning, WOp.onQueryDone 3 (.ok (some [[("a", "b")]])),
      WOp.checkExpiredTime 9] (by decide)⟩

/-! ## Claim C10 -/

/-- C10: a query future that completes successfully with an empty or
`None` row list takes neither branch of the completion callback, so
every field of the WDC keeps its prior value — in both completion
callbacks present in the snapshot (`WorkingDataConnection.on_query_done`
and `BaseAgent._on_done`): the WDC is neither marked updated (so nothing
is published) nor returned to a schedulable state. -/
theorem C10_empty_result_frame (now : Int) (w : WorkingDataConnection)
    (wb : WDCBase) :
    on_query_done now (.ok none) w = w ∧
    on_query_done now (.ok (some [])) w = w ∧
    on_done wb (.ok none) = wb ∧
    on_done wb (.ok (some [])) = wb := by
  refine ⟨?_, ?_, ?_, ?_⟩ <;> simp [on_query_done, on_done, truthyRows]

end AppsLogging

namespace AppsLogging

/-! ## Claim C4 -/

/-- C4: evaluation at the failing input.  A WDC with a database binding
whose query returns a row list different from the stored one is marked
updated by the live completion callback, but the next dispatch pass
raises `ImportError` on its first statement
(`from producers.factory import PRODUCER_INSTANCES`, a name
`producers/factory.py` does not bind), so no producer send is issued —
not the exactly-one send the claim states. -/
theorem C4_dispatch_raises_import_error :
    (on_done
        ⟨"dc", "kafka", "p", some "oracle", some "db", some "q", false,
          100, none, none, none, false, true⟩
        (.ok (some [[("name", "ada")]]))).is_updated = true ∧
    send_messages_to_producers
      [on_done
          ⟨"dc", "kafka", "p", some "oracle", some "db", some "q", false,
            100, none, none, none, false, true⟩
          (.ok (some [[("name", "ada")]]))] = .error .importError := by
  exact ⟨rfl, rfl⟩

/-! ## Claim C2 -/

/-- C2: evaluation at the failing input.  A query task whose `_query`
raises is trapped inside `_safe_query`, which reconnects and returns
Python `None`; the dispatcher's completion callback then resolves the
task's future successfully with that `None`.  The retry counter stays
at 0, nothing is re-enqueued, no backoff sleep happens, and the future
never receives the exception — contradicting the claim (and the
docstring of `_dispatch` itself). -/
theorem C2_failed_query_resolves_future_with_none :
    dispatch_one (.error .queryError) ⟨"SELECT 1", [], 0, .pending⟩ =
      (⟨"SELECT 1", [], 0, .result none⟩, []) := by
  rfl

/-! ## Claim C3 -/

/-- C3: evaluation at the failing input.  With the rotated predecessor
`app.log.1` still in the directory and carrying the stored identity
`(1, 0)`, the candidate loop of `_read_remaining_old_file` evaluates
`self._get_file_id(f)` — an attribute `BaseAgent` does not define — and
raises `AttributeError` instead of reading the predecessor from the
stored cursor (`path_file.file_id` does not exist either).  Only when no
sibling candidate exists does the function reach its fall-through and
return the empty batch after the warning. -/
theorem C3_rotation_recovery_raises :
    read_remaining_old_file
      [⟨"app.log", 10, (2, 0), ['x']⟩,
       ⟨"app.log.1", 5, (1, 0), ['o', 'l', 'd', '\n']⟩]
      ⟨"app", "app.log", 2, some (1, 0)⟩ = .error .attributeError ∧
    read_remaining_old_file [⟨"app.log", 10, (2, 0), ['x']⟩]
      ⟨"app", "app.log", 2, some (1, 0)⟩ = .ok [] := by
  exact ⟨rfl, rfl⟩

end AppsLogging

namespace AppsLogging

/-! ## Claim C6 -/

/-- A persistently failing send starting from retry count `m.retries`:
full characterization of the sleeps, the number of re-enqueues, the
final counter and the terminal `raise`. -/
theorem run_persistent_failure_from (mr : Nat) (j : Nat → ℚ) :
    ∀ fuel (m : Message), m.retries ≤ mr → mr < m.retries + fuel →
      run_persistent_failure mr j fuel m =
        ⟨(List.range (mr - m.retries)).map
            (fun i => (2 : ℚ) ^ (m.retries + i) + j (m.retries + i)),
         mr - m.retries, mr, true⟩ := by
  intro fuel
  induction fuel with
  | zero => intro m h1 h2; omega
  | succ fuel ih =>
    intro m h1 h2
    by_cases hlt : m.retries < mr
    · have hstep : worker_on_send_failure mr (j m.retries) m =
          .reenqueued ((2 : ℚ) ^ m.retries + j m.retries)
            { m with retries := m.retries + 1 } := by
        simp [worker_on_send_failure, hlt]
      have hih := ih { m with retries := m.retries + 1 }
        (show m.retries + 1 ≤ mr by omega)
        (show mr < m.retries + 1 + fuel by omega)
      simp only [run_persistent_failure, hstep]
      rw [hih]
      dsimp only
      simp only [FailRun.mk.injEq]
      refine ⟨?_, by omega, by trivial, by trivial⟩
      have hrange : mr - m.retries = (mr - (m.retries + 1)) + 1 := by omega
      rw [hrange, List.range_succ_eq_map, List.map_cons, List.map_map]
      refine congrArg₂ List.cons ?_ ?_
      · simp
      · refine List.map_congr_left fun i _ => ?_
        have hx : m.retries + 1 + i = m.retries + (i + 1) := by omega
        simp [Function.comp, hx, Nat.succ_eq_add_one]
    · have hge : m.retries = mr := by omega
      have hstep : worker_on_send_failure mr (j m.retries) m = .raised := by
        simp [worker_on_send_failure, hlt]
      simp only [run_persistent_failure, hstep]
      simp [FailRun.mk.injEq, hge]

/-- C6 (counterexample): with `max_retries = 2` and zero jitter, a
message whose send always fails sleeps 1 second and then 2 seconds
before its two re-enqueues — `2 ** retries` is computed from the counter
BEFORE the increment — not the 2-then-4 seconds the claim states; the
third failure raises. -/
theorem C6_counterexample :
    (run_persistent_failure 2 (fun _ => 0) 3
        ⟨none, false, false, [], 0⟩).sleeps = [1, 2] ∧
    (run_persistent_failure 2 (fun _ => 0) 3
        ⟨none, false, false, [], 0⟩).sleeps ≠ [2, 4] ∧
    (run_persistent_failure 2 (fun _ => 0) 3
        ⟨none, false, false, [], 0⟩).raised = true := by
  have hrun := run_persistent_failure_from 2 (fun _ => 0) 3
    ⟨none, false, false, [], 0⟩ (by simp) (by simp)
  rw [hrun]
  have hlist : List.map (fun i => (2 : ℚ) ^ i) (List.range 2) = [1, 2] := by
    rw [show List.range 2 = [0, 1] from rfl]
    norm_num
  exact ⟨by norm_num [hlist], by norm_num [hlist], rfl⟩

/-- C6 (amended): a producer message whose send raises on every attempt
is re-enqueued exactly `max_retries` times, its retry counter rising by
one per re-enqueued failure from 0 to `max_retries`; the sleep before
the n-th re-enqueue (n = 1 .. max_retries) is `2^(n-1) + jitter`
seconds, the jitter drawn from `uniform(0, 10)`; the following failure
is re-raised out of the worker instead of being re-enqueued. -/
theorem C6_amended (mr : Nat) (j : Nat → ℚ) (tp : Option String)
    (e w : Bool) (pay : Rows) :
    run_persistent_failure mr j (mr + 1) ⟨tp, e, w, pay, 0⟩ =
      ⟨(List.range mr).map (fun n => (2 : ℚ) ^ n + j n), mr, mr, true⟩ := by
  have h := run_persistent_failure_from mr j (mr + 1)
    ⟨tp, e, w, pay, 0⟩ (by simp) (by simp)
  rw [h]
  simp

end AppsLogging

namespace AppsLogging

/-! ## Claim C7 -/

theorem retryRound_true_connected (conn : Nat → Bool) (rd : Nat) :
    ∀ k s, (retryRound conn rd k s).2 = true →
      (retryRound conn rd k s).1.connected = true := by
  intro k
  induction k with
  | zero => intro s h; simp [retryRound] at h
  | succ k ih =>
    intro s h
    by_cases hc : conn s.attempts
    · simp [retryRound, hc]
    · simp only [retryRound, if_neg hc] at h ⊢
      exact ih _ h

theorem retryRound_false_spec (conn : Nat → Bool) (rd : Nat) :
    ∀ k s, (retryRound conn rd k s).2 = false →
      (retryRound conn rd k s).1.attempts = s.attempts + k ∧
      (retryRound conn rd k s).1.connected = s.connected ∧
      (retryRound conn rd k s).1.sleeps = s.sleeps ++ List.replicate k rd ∧
      (∀ i, s.attempts ≤ i → i < s.attempts + k → conn i = false) := by
  intro k
  induction k with
  | zero =>
    intro s _
    refine ⟨rfl, rfl, by simp [retryRound], ?_⟩
    intro i h1 h2
    omega
  | succ k ih =>
    intro s h
    by_cases hc : conn s.attempts
    · simp [retryRound, hc] at h
    · simp only [retryRound, if_neg hc] at h ⊢
      obtain ⟨ha, hcn, hs, hw⟩ := ih _ h
      refine ⟨by rw [ha]; simp; omega, by rw [hcn], ?_, ?_⟩
      · rw [hs]
        simp only [List.append_assoc, List.singleton_append]
        rw [← List.replicate_succ]
      · intro i h1 h2
        rcases Nat.eq_or_lt_of_le h1 with rfl | hlt
        · simpa using hc
        · have := hw i (by simp; omega) (by simp; omega)
          exact this

theorem connect_with_retry_connected (conn : Nat → Bool) (mr rd : Nat) :
    ∀ fuel s s1, connect_with_retry conn mr rd fuel s = some s1 →
      s1.connected = true := by
  intro fuel
  induction fuel with
  | zero => intro s s1 h; simp [connect_with_retry] at h
  | succ fuel ih =>
    intro s s1 h
    simp only [connect_with_retry] at h
    by_cases hd : (retryRound conn rd mr s).2 = true
    · rw [if_pos hd] at h
      cases h
      exact retryRound_true_connected conn rd mr s hd
    · rw [if_neg hd] at h
      exact ih _ _ h

theorem connect_with_retry_terminates (conn : Nat → Bool) (mr rd : Nat)
    (m : Nat) (hm : conn m = true) :
    ∀ fuel s, s.attempts ≤ m → m < s.attempts + fuel * mr →
      ∃ s1, connect_with_retry conn mr rd fuel s = some s1 := by
  intro fuel
  induction fuel with
  | zero => intro s h1 h2; omega
  | succ fuel ih =>
    intro s h1 h2
    simp only [connect_with_retry]
    by_cases hd : (retryRound conn rd mr s).2 = true
    · rw [if_pos hd]
      exact ⟨_, rfl⟩
    · rw [if_neg hd]
      have hspec := retryRound_false_spec conn rd mr s (by simpa using hd)
      have hge : s.attempts + mr ≤ m := by
        by_contra hlt
        push_neg at hlt
        have hfalse := hspec.2.2.2 m h1 hlt
        rw [hm] at hfalse
        exact Bool.noConfusion hfalse
      apply ih
      · simpa [hspec.1] using hge
      · simp only [hspec.1]
        have : (fuel + 1) * mr = mr + fuel * mr := by ring
        omega

/-- C7: `ensure_connected` never returns to its caller while
disconnected — every value it returns has the connected flag set; under
the precondition that some `_connect` invocation eventually succeeds
(and `max_retries` is positive), it terminates with the flag true; a
round that exhausts its `max_retries` attempts has slept `retry_delay`
seconds after each failed attempt, advanced through exactly
`max_retries` attempts, and `connect_with_retry` then sleeps 120 seconds
before recursing into the next round. -/
theorem C7_ensure_connected (conn : Nat → Bool) (mr rd : Nat)
    (hmr : 0 < mr) (m : Nat) (hm : conn m = true) (s : OrchestratorState) :
    (∀ rounds s1, ensure_connected conn mr rd rounds s = some s1 →
        s1.connected = true) ∧
    (s.attempts = 0 → ∃ rounds s1,
        ensure_connected conn mr rd rounds s = some s1 ∧
        s1.connected = true) ∧
    (∀ s0 fuel, (retryRound conn rd mr s0).2 = false →
        (retryRound conn rd mr s0).1.sleeps =
          s0.sleeps ++ List.replicate mr rd ∧
        (retryRound conn rd mr s0).1.attempts = s0.attempts + mr ∧
        connect_with_retry conn mr rd (fuel + 1) s0 =
          connect_with_retry conn mr rd fuel
            { (retryRound conn rd mr s0).1 with
                sleeps := (retryRound conn rd mr s0).1.sleeps ++ [120] }) := by
  refine ⟨?_, ?_, ?_⟩
  · intro rounds s1 h
    by_cases hc : s.connected = true
    · simp only [ensure_connected, if_pos hc] at h
      cases h
      exact hc
    · simp only [ensure_connected] at h
      rw [if_neg hc] at h
      exact connect_with_retry_connected conn mr rd rounds s s1 h
  · intro ha0
    by_cases hc : s.connected = true
    · exact ⟨0, s, by simp [ensure_connected, hc], hc⟩
    · have hterm := connect_with_retry_terminates conn mr rd m hm
        (m + 1) s (by omega)
        (by rw [ha0]; have : m + 1 ≤ (m + 1) * mr := Nat.le_mul_of_pos_right _ hmr; omega)
      obtain ⟨s1, hs1⟩ := hterm
      refine ⟨m + 1, s1, ?_, ?_⟩
      · simp only [ensure_connected]
        rw [if_neg hc]
        exact hs1
      · exact connect_with_retry_connected conn mr rd (m + 1) s s1 hs1
  · intro s0 fuel hfalse
    have hspec := retryRound_false_spec conn rd mr s0 hfalse
    refine ⟨hspec.2.2.1, hspec.1, ?_⟩
    simp only [connect_with_retry]
    rw [if_neg (by simp [hfalse])]

/-- Closed instantiation of `C7_ensure_connected`: two attempts per
round and a connect that succeeds at its second invocation. -/
theorem C7_ensure_connected_witness :
    (0 < 2 ∧ (fun i => decide (i = 1)) 1 = true) ∧
    ((∀ rounds s1, ensure_connected (fun i => decide (i = 1)) 2 5 rounds
          ⟨false, [], 0⟩ = some s1 → s1.connected = true) ∧
     ((⟨false, [], 0⟩ : OrchestratorState).attempts = 0 → ∃ rounds s1,
        ensure_connected (fun i => decide (i = 1)) 2 5 rounds
          ⟨false, [], 0⟩ = some s1 ∧ s1.connected = true) ∧
     (∀ s0 fuel, (retryRound (fun i => decide (i = 1)) 5 2 s0).2 = false →
        (retryRound (fun i => decide (i = 1)) 5 2 s0).1.sleeps =
          s0.sleeps ++ List.replicate 2 5 ∧
        (retryRound (fun i => decide (i = 1)) 5 2 s0).1.attempts =
          s0.attempts + 2 ∧
        connect_with_retry (fun i => decide (i = 1)) 2 5 (fuel + 1) s0 =
          connect_with_retry (fun i => decide (i = 1)) 2 5 fuel
            { (retryRound (fun i => decide (i = 1)) 5 2 s0).1 with
                sleeps :=
                  (retryRound (fun i => decide (i = 1)) 5 2 s0).1.sleeps
                    ++ [120] })) :=
  ⟨⟨by decide, by decide⟩,
   C7_ensure_connected (fun i => decide (i = 1)) 2 5 (by decide) 1 (by decide)
     ⟨false, [], 0⟩⟩

end AppsLogging

namespace AppsLogging

/-! ## Claim C8 -/

/-- C8: evaluation at the failing inputs.  A fully valid database
request (config present, type registered, validation passing) raises
`AttributeError`: `DatabaseFactory._create` calls `database_ref.start()`
but `BaseDatabase` defines no `start`.  A fully valid producer request
for the registered `kafka_handler` type also raises `AttributeError`:
`ProducerFactory._create` reads `producer_config.topics` but
`KafkaHandlerConfig` declares `topic`, not `topics`.  No validated,
constructed and started instance is ever returned or cached.  The error
taxonomy branches themselves behave as coded: an absent `(type, name)`
pair raises the config-not-found ValueError (the config lookup runs
before the registry lookup), and a present config entry with an
unregistered type raises the unknown-type ValueError. -/
theorem C8_factory_acquisition_crashes :
    database_create [⟨"oracle", "db1", true⟩]
        [("oracle", ⟨oracleDatabaseAttrs⟩)] "oracle" "db1"
      = .error .attributeError ∧
    producer_create [⟨"kafka_handler", "k1", true⟩]
        [("kafka_handler", ⟨kafkaHandlerConfigFields, none, baseProducerAttrs⟩)]
        "kafka_handler" "k1" (some "errors")
      = .error .attributeError ∧
    database_create [⟨"oracle", "db1", true⟩]
        [("oracle", ⟨oracleDatabaseAttrs⟩)] "oracle" "db2"
      = .error .configNotFound ∧
    database_create [⟨"oracle", "db1", true⟩, ⟨"mystery", "db9", true⟩]
        [("oracle", ⟨oracleDatabaseAttrs⟩)] "mystery" "db9"
      = .error .unknownType := by
  exact ⟨rfl, rfl, rfl, rfl⟩

/-! ## Claim C9 -/

theorem concStep_inv {s s2 : ConcState} (h : ConcStep s s2)
    (hinv : ConcInv s) : ConcInv s2 := by
  obtain ⟨ha, hb⟩ := hinv
  cases h with
  | fastHit t hp hc =>
    constructor
    · intro u hu
      dsimp only at hu ⊢
      rcases eq_or_ne u t with rfl | hne
      · rw [Function.update_same] at hu
        rcases hu with hu | hu <;> exact ThreadPC.noConfusion hu
      · rw [Function.update_noteq hne] at hu
        exact ha u hu
    · intro hcc u
      dsimp only at hcc ⊢
      rcases eq_or_ne u t with rfl | hne
      · rw [Function.update_same]
        exact fun hfalse => ThreadPC.noConfusion hfalse
      · rw [Function.update_noteq hne]
        exact hb hcc u
  | fastMiss t hp hc =>
    constructor
    · intro u hu
      dsimp only at hu ⊢
      rcases eq_or_ne u t with rfl | hne
      · rw [Function.update_same] at hu
        rcases hu with hu | hu <;> exact ThreadPC.noConfusion hu
      · rw [Function.update_noteq hne] at hu
        exact ha u hu
    · intro hcc u
      dsimp only at hcc ⊢
      rcases eq_or_ne u t with rfl | hne
      · rw [Function.update_same]
        exact fun hfalse => ThreadPC.noConfusion hfalse
      · rw [Function.update_noteq hne]
        exact hb hcc u
  | acquire t hp hl =>
    constructor
    · intro u hu
      dsimp only at hu ⊢
      rcases eq_or_ne u t with rfl | hne
      · rfl
      · rw [Function.update_noteq hne] at hu
        have hcontra := ha u hu
        rw [hl] at hcontra
        exact Option.noConfusion hcontra
    · intro hcc u
      dsimp only at hcc ⊢
      rcases eq_or_ne u t with rfl | hne
      · rw [Function.update_same]
        exact fun hfalse => ThreadPC.noConfusion hfalse
      · rw [Function.update_noteq hne]
        exact hb hcc u
  | checkHit t hp hc =>
    constructor
    · intro u hu
      dsimp only at hu ⊢
      rcases eq_or_ne u t with rfl | hne
      · rw [Function.update_same] at hu
        rcases hu with hu | hu <;> exact ThreadPC.noConfusion hu
      · rw [Function.update_noteq hne] at hu
        have hlu := ha u hu
        have hlt := ha t (Or.inl hp)
        rw [hlu] at hlt
        injection hlt with hh
        exact absurd hh hne
    · intro hcc u
      dsimp only at hcc ⊢
      rcases eq_or_ne u t with rfl | hne
      · rw [Function.update_same]
        exact fun hfalse => ThreadPC.noConfusion hfalse
      · rw [Function.update_noteq hne]
        exact hb hc u
  | checkMiss t hp hc =>
    constructor
    · intro u hu
      dsimp only at hu ⊢
      rcases eq_or_ne u t with rfl | hne
      · exact ha u (Or.inl hp)
      · rw [Function.update_noteq hne] at hu
        exact ha u hu
    · intro hcc u
      dsimp only at hcc
      rw [hc] at hcc
      exact Bool.noConfusion hcc
  | connectFail t hp =>
    exact ⟨ha, hb⟩
  | connectOk t hp =>
    constructor
    · intro u hu
      dsimp only at hu ⊢
      rcases eq_or_ne u t with rfl | hne
      · rw [Function.update_same] at hu
        rcases hu with hu | hu <;> exact ThreadPC.noConfusion hu
      · rw [Function.update_noteq hne] at hu
        have hlu := ha u hu
        have hlt := ha t (Or.inr hp)
        rw [hlu] at hlt
        injection hlt with hh
        exact absurd hh hne
    · intro hcc u
      dsimp only
      rcases eq_or_ne u t with rfl | hne
      · rw [Function.update_same]
        exact fun hfalse => ThreadPC.noConfusion hfalse
      · rw [Function.update_noteq hne]
        intro hu
        have hlu := ha u (Or.inr hu)
        have hlt := ha t (Or.inr hp)
        rw [hlu] at hlt
        injection hlt with hh
        exact hne hh

theorem concReach_inv {s : ConcState} (h : ConcReach s) : ConcInv s := by
  induction h with
  | init =>
    constructor
    · intro t ht
      rcases ht with ht | ht <;> exact ThreadPC.noConfusion ht
    · intro hc
      exact Bool.noConfusion hc
  | step _ hs ih => exact concStep_inv hs ih

/-- C9: in every state reachable by interleaving two callers of
`ensure_connected` on one orchestrator, at most one caller is inside the
connect region at a time (the mutex admits one holder), and once the
connected flag is published no step of either caller invokes `_connect`
again or clears the flag: a caller that acquires the mutex afterwards
observes the established result and leaves without connecting. -/
theorem C9_single_flight (s : ConcState) (h : ConcReach s) :
    (∀ t u : Fin 2, s.pc t = .connecting → s.pc u = .connecting → t = u) ∧
    (s.connected = true → ∀ s2, ConcStep s s2 →
        s2.connectLog = s.connectLog ∧ s2.connected = true) := by
  have hinv := concReach_inv h
  constructor
  · intro t u ht hu
    have h1 := hinv.1 t (Or.inr ht)
    have h2 := hinv.1 u (Or.inr hu)
    rw [h1] at h2
    exact Option.some.inj h2
  · intro hc s2 hstep
    cases hstep with
    | fastHit t hp hcc => exact ⟨rfl, hc⟩
    | fastMiss t hp hcc =>
      rw [hc] at hcc
      exact Bool.noConfusion hcc
    | acquire t hp hl => exact ⟨rfl, hc⟩
    | checkHit t hp hcc => exact ⟨rfl, hc⟩
    | checkMiss t hp hcc =>
      rw [hc] at hcc
      exact Bool.noConfusion hcc
    | connectFail t hp => exact absurd hp (hinv.2 hc t)
    | connectOk t hp => exact absurd hp (hinv.2 hc t)

/-- Closed instantiation of `C9_single_flight` at the initial state. -/
theorem C9_single_flight_witness :
    ConcReach concInit ∧
    ((∀ t u : Fin 2, concInit.pc t = .connecting →
        concInit.pc u = .connecting → t = u) ∧
     (concInit.connected = true → ∀ s2, ConcStep concInit s2 →
        s2.connectLog = concInit.connectLog ∧ s2.connected = true)) :=
  ⟨ConcReach.init, C9_single_flight concInit ConcReach.init⟩

end AppsLogging
